import Mathlib

/-!
Verification of the ckgroup ClickHouse client (src/db/ckgroup/ckconnv2.go).

This file gives a shallow embedding of the functions of ckconnv2.go that the
claims concern — getColumnName, analyzeStructure, extractValues, convertValue,
BatchInsert, CreateTable, CreateDistributedTable, QueryToStruct and the batch
size normalisation of NewClickHouseClient — and proves or refutes each claim.

Modelling conventions:
- A reflect.StructField is a StructField record carrying the field name, the
  exported flag and the raw db/json struct tags (Go returns "" for an absent
  tag, so an absent tag is the empty string here as well).
- A runtime value (reflect.Value) is a GoValue: invalid values, opaque base
  scalars, pointers, structs, slices whose element type is a struct, and
  slices of any other element type; a struct value is its ordered list of
  (field, value) pairs, exactly what the reflection loops of the source
  iterate over.
- Values already handed to the driver (Go interface values produced by
  convertValue) form the Wire type; Go map insertion into the per-element
  map of the nested branch is modelled by mapInsert (insert or overwrite).
- The external driver is an oracle supplying, per operation, either none
  (success) or some message (the error text the driver would return).
- Go loops with a mutable index become fuel-indexed recursions; the fuel is
  always instantiated with a bound that provably exceeds the iteration count,
  so the fuel branch never fires on the runs the theorems are about.
-/

namespace Ckconn

/-- Model of Go strings.Split(tag, ",")[0]: the prefix of the tag before the
first comma (the whole tag when it has no comma). -/
def splitFirst (tag : String) : String :=
  String.mk (tag.data.takeWhile (fun c => c ≠ ','))

/-- Model of Go strings.ToLower, character by character. -/
def lowerStr (s : String) : String :=
  String.mk (s.data.map Char.toLower)

/-- Model of reflect.StructField: name, exported flag, and the raw "db" and
"json" struct tags (empty string when the tag is absent, as in Go). -/
structure StructField where
  name : String
  exported : Bool
  dbTag : String
  jsonTag : String
deriving DecidableEq

/-- Embedding of getColumnName (ckconnv2.go lines 211-219): db tag first,
then json tag, then the lower-cased field name. -/
def getColumnName (f : StructField) : String :=
  if f.dbTag ≠ "" then splitFirst f.dbTag
  else if f.jsonTag ≠ "" then splitFirst f.jsonTag
  else lowerStr f.name

/-- Embedding of analyzeStructure (lines 176-208) on a struct type given as
its field list: unexported fields and fields whose resolved name is "-" are
skipped, the remaining resolved names are collected in declaration order.
The non-struct error branch of the source (line 186) is outside this model:
records are struct-shaped by construction here. -/
def analyzeStructure (fields : List StructField) : List String :=
  fields.filterMap (fun f =>
    if f.exported = false then none
    else if getColumnName f = "-" then none
    else some (getColumnName f))

/-- Model of a Go runtime value as seen through the reflect kinds that
convertValue (lines 260-305) distinguishes: invalid values, opaque base
scalars, pointers, struct values (their ordered field/value pairs), slices
whose element type is a struct, and slices of any other element type. -/
inductive GoValue : Type where
  | invalid : GoValue
  | base : Nat → GoValue
  | ptr : Option GoValue → GoValue
  | structV : List (StructField × GoValue) → GoValue
  | sliceS : List (List (StructField × GoValue)) → GoValue
  | sliceB : List GoValue → GoValue

/-- Model of the interface values convertValue hands to the driver: nil, the
empty interface slice, a raw passed-through value, or a slice of
name-to-value maps (the nested-struct branch). -/
inductive Wire : Type where
  | nil : Wire
  | emptyList : Wire
  | raw : GoValue → Wire
  | maps : List (List (String × Wire)) → Wire

/-- Go map assignment elemMap[k] = v: overwrite the binding of k when k is
already present, append the binding otherwise. -/
def mapInsert (m : List (String × Wire)) (k : String) (v : Wire) : List (String × Wire) :=
  if ∃ p ∈ m, p.1 = k then m.map (fun p => if p.1 = k then (k, v) else p)
  else m ++ [(k, v)]

mutual

/-- Embedding of convertValue (lines 260-305). Invalid values map to nil;
slices map to the empty interface slice when empty, to a slice of
name-to-value maps when the element type is a struct, and pass through raw
otherwise; nil pointers map to nil and non-nil pointers recurse on the
referent; every other kind (the default branch) passes through raw. -/
def convertValue : GoValue → Wire
  | .invalid => .nil
  | .sliceS elems =>
      if elems.length = 0 then .emptyList else .maps (convertElems elems)
  | .sliceB elems =>
      if elems.length = 0 then .emptyList else .raw (.sliceB elems)
  | .ptr none => .nil
  | .ptr (some v) => convertValue v
  | .base n => .raw (.base n)
  | .structV fs => .raw (.structV fs)

/-- Loop of the nested-struct branch of convertValue (lines 276-291): one
name-to-value map per slice element. -/
def convertElems : List (List (StructField × GoValue)) → List (List (String × Wire))
  | [] => []
  | elem :: rest =>
      (convertFields elem).foldl (fun m p => mapInsert m p.1 p.2) [] :: convertElems rest

/-- Inner loop of the nested-struct branch (lines 281-289): the ordered
(resolved name, converted value) pairs of the exported, non-"-" fields of
one element; the enclosing map build inserts them left to right. -/
def convertFields : List (StructField × GoValue) → List (String × Wire)
  | [] => []
  | (f, v) :: rest =>
      if f.exported = false then convertFields rest
      else if getColumnName f = "-" then convertFields rest
      else (getColumnName f, convertValue v) :: convertFields rest

end

/-- Map built for one nested element: the pairs of convertFields inserted
left to right into an initially empty Go map. -/
def buildElemMap (fs : List (StructField × GoValue)) : List (String × Wire) :=
  (convertFields fs).foldl (fun m p => mapInsert m p.1 p.2) []

/-- Fields of a record that survive the shared skip rule (exported and not
resolved to "-"); both analyzeStructure and extractValues walk exactly
these fields in order. -/
def included : List (StructField × GoValue) → List (StructField × GoValue)
  | [] => []
  | (f, v) :: rest =>
    if f.exported = false then included rest
    else if getColumnName f = "-" then included rest
    else (f, v) :: included rest

/-- Loop of extractValues (lines 234-254): walk the fields, skip unexported
and "-" fields, stop (Go break) once columnIndex reaches the column count,
convert and collect the rest. -/
def extractValuesAux : List (StructField × GoValue) → Nat → Nat → List Wire
  | [], _, _ => []
  | (f, v) :: rest, colIdx, ncols =>
    if f.exported = false then extractValuesAux rest colIdx ncols
    else if getColumnName f = "-" then extractValuesAux rest colIdx ncols
    else if ncols ≤ colIdx then []
    else convertValue v :: extractValuesAux rest (colIdx + 1) ncols

/-- Embedding of extractValues (lines 222-257). The Go signature returns
(values, error) but the body has no failing path (it always returns nil as
the error), which the Except type makes visible: only the ok constructor is
ever produced. -/
def extractValues (item : List (StructField × GoValue)) (columns : List String) :
    Except String (List Wire) :=
  Except.ok (extractValuesAux item 0 columns.length)

/-- Record value: a struct instance as its ordered (field, value) pairs. -/
abbrev RecordV := List (StructField × GoValue)

/-- Observable interactions of BatchInsert with the driver: a batch prepared
for the chunk starting at the given record index, a tuple appended for the
given record index, and a chunk sent (start index, one-past-end index). -/
inductive Event : Type where
  | prepared : Nat → Event
  | appended : Nat → List Wire → Event
  | sent : Nat → Nat → Event

/-- Driver oracle for BatchInsert: per chunk start index, whether PrepareBatch
and Send fail (and with what message); per record index, whether Append
fails. none means the driver call succeeds. -/
structure BatchDriver where
  prepareErr : Nat → Option String
  appendErr : Nat → Option String
  sendErr : Nat → Option String

/-- Inner loop of BatchInsert (lines 148-158): extract each record of the
chunk [j, endIdx), append its tuple to the batch. extractValues never fails
(its error branch at line 151-153 is dead), so the only failure is Append.
The fuel bounds the loop iterations and is instantiated above endIdx - j. -/
def appendLoop (drv : BatchDriver) (data : List RecordV) (ncols endIdx : Nat) :
    Nat → Nat → List Event × Option String
  | 0, _ => ([], none)
  | fuel + 1, j =>
    if j < endIdx then
      let values := extractValuesAux (data.getD j []) 0 ncols
      match drv.appendErr j with
      | some e => ([], some ("failed to append data to batch: " ++ e))
      | none =>
        let rest := appendLoop drv data ncols endIdx fuel (j + 1)
        (Event.appended j values :: rest.1, rest.2)
    else ([], none)

/-- Chunk loop of BatchInsert (lines 136-164): for i = 0, B, 2B, ... below
the data length, prepare a batch, append the records of [i, min (i+B) len),
send, and stop with the wrapped error on the first failure. The fuel bounds
the loop iterations and is instantiated with the data length, which exceeds
the chunk count whenever the batch size is positive. -/
def insertLoop (drv : BatchDriver) (data : List RecordV) (ncols batchSize : Nat) :
    Nat → Nat → List Event × Option String
  | 0, _ => ([], none)
  | fuel + 1, i =>
    if i < data.length then
      let endIdx := min (i + batchSize) data.length
      match drv.prepareErr i with
      | some e => ([], some ("failed to prepare batch: " ++ e))
      | none =>
        let a := appendLoop drv data ncols endIdx (endIdx - i) i
        match a.2 with
        | some err => (Event.prepared i :: a.1, some err)
        | none =>
          match drv.sendErr i with
          | some e => (Event.prepared i :: a.1,
              some ("failed to send batch " ++ toString i ++ "-" ++ toString (endIdx - 1)
                ++ ": " ++ e))
          | none =>
            let rest := insertLoop drv data ncols batchSize fuel (i + batchSize)
            (Event.prepared i :: (a.1 ++ Event.sent i endIdx :: rest.1), rest.2)
    else ([], none)

/-- Embedding of BatchInsert (lines 117-167) on struct-shaped records: empty
input succeeds as a no-op (line 124-126), otherwise the column list is taken
from element 0 and the chunk loop runs. The non-slice and non-struct error
branches (lines 119-121 and 130-133) are outside this model, since data is a
list of struct-shaped records by construction. The result is the event trace
together with the returned error. -/
def BatchInsert (drv : BatchDriver) (batchSize : Nat) (data : List RecordV) :
    List Event × Option String :=
  if data.length = 0 then ([], none)
  else
    let columns := analyzeStructure ((data.headD []).map Prod.fst)
    insertLoop drv data columns.length batchSize data.length 0

/-- Chunk ranges the loop of BatchInsert walks: (start, one-past-end) pairs
starting at i, stepping by batchSize, clipped to dataLen. Fuel-indexed like
insertLoop. -/
def chunkList (dataLen batchSize : Nat) : Nat → Nat → List (Nat × Nat)
  | 0, _ => []
  | fuel + 1, i =>
    if i < dataLen then
      (i, min (i + batchSize) dataLen) :: chunkList dataLen batchSize fuel (i + batchSize)
    else []

/-- Chunk ranges of a full run over dataLen records with the given batch
size. -/
def chunks (dataLen batchSize : Nat) : List (Nat × Nat) :=
  chunkList dataLen batchSize dataLen 0

/-- Projection selecting the sent-chunk events of a trace. -/
def sentOf : Event → Option (Nat × Nat)
  | .sent a b => some (a, b)
  | _ => none

/-- Bound stating that an event concerns no chunk after the one starting at
iF (whose one-past-end index is endF): chunks after iF are never prepared,
their records never appended, and the chunk at iF (and anything after it)
is never sent. -/
def eventBelow (iF endF : Nat) : Event → Prop
  | .prepared i => i ≤ iF
  | .appended j _ => j < endF
  | .sent _ b => b ≤ iF

/-- Column of the DDL builders: name and opaque type text, as in the source
Column struct (lines 16-19). -/
structure Column where
  name : String
  typ : String
deriving DecidableEq

/-- Per-column lines of the CREATE TABLE statements (lines 445-450 and
472-477): two-space indent, name, space, type, comma-newline separated. -/
def colDefs (cols : List Column) : String :=
  String.intercalate ",\n" (cols.map (fun c => "  " ++ c.name ++ " " ++ c.typ))

/-- CREATE DATABASE statement issued by CreateTable (line 439) and
CreateDistributedTable (line 465); the cluster name bms_cluster is a literal
in the source. -/
def createDatabaseStmt (database : String) : String :=
  "CREATE DATABASE IF NOT EXISTS " ++ database ++ " ON CLUSTER bms_cluster"

/-- CREATE TABLE statement built by CreateTable (lines 443-456). -/
def createTableStmt (database table order desc : String) (cols : List Column) : String :=
  "CREATE TABLE IF NOT EXISTS " ++ database ++ "." ++ table ++ " ON CLUSTER bms_cluster (\n"
    ++ colDefs cols
    ++ "\n)\nENGINE = ReplicatedMergeTree(\x27/clickhouse/tables/" ++ database
    ++ "/\x7bshard\x7d/" ++ table ++ "\x27, \x27\x7breplica\x7d\x27)\n"
    ++ "PARTITION BY toYYYYMM(created_at)\n"
    ++ "ORDER BY (" ++ order ++ ", intHash64(created_at))\n"
    ++ "SAMPLE BY intHash64(created_at)\n"
    ++ "SETTINGS index_granularity = 8192\n"
    ++ "COMMENT \x27" ++ desc ++ "\x27;"

/-- CREATE TABLE statement built by CreateDistributedTable (lines 469-480). -/
def createDistTableStmt (distDB localTable desc : String) (cols : List Column) : String :=
  "CREATE TABLE IF NOT EXISTS " ++ distDB ++ "." ++ (localTable ++ "_distributed")
    ++ " ON CLUSTER bms_cluster (\n"
    ++ colDefs cols
    ++ "\n)\nENGINE = Distributed(\x27bms_cluster\x27, \x27" ++ distDB ++ "\x27, \x27"
    ++ localTable ++ "\x27)\n"
    ++ "COMMENT \x27" ++ desc ++ "\x27;"

/-- Embedding of CreateTable (lines 427-459). execErr is the driver oracle
for Exec. The result is the list of statements issued (in order, including a
failing one) together with the returned error. The created_at check runs
before any statement is issued. -/
def CreateTable (execErr : String → Option String) (database table order desc : String)
    (cols : List Column) : List String × Option String :=
  let hasCreatedAt := cols.any (fun col => col.name == "created_at")
  if hasCreatedAt = false then
    ([], some ("created_at column is required for table " ++ database ++ "." ++ table))
  else
    match execErr (createDatabaseStmt database) with
    | some e => ([createDatabaseStmt database], some e)
    | none =>
      let stmt := createTableStmt database table order desc cols
      match execErr stmt with
      | some e => ([createDatabaseStmt database, stmt], some e)
      | none => ([createDatabaseStmt database, stmt], none)

/-- Embedding of CreateDistributedTable (lines 460-483): empty column list is
rejected first, then the database and distributed-table statements are
issued. -/
def CreateDistributedTable (execErr : String → Option String) (distDB localTable desc : String)
    (cols : List Column) : List String × Option String :=
  if cols.length = 0 then ([], some "columns must be provided")
  else
    match execErr (createDatabaseStmt distDB) with
    | some e => ([createDatabaseStmt distDB], some e)
    | none =>
      let stmt := createDistTableStmt distDB localTable desc cols
      match execErr stmt with
      | some e => ([createDatabaseStmt distDB, stmt], some e)
      | none => ([createDatabaseStmt distDB, stmt], none)

/-- Modelled from the spec (claim C2 compares the source against this): the
spec section 6 gives the database DDL shape CREATE DATABASE IF NOT EXISTS
db ON CLUSTER cluster with the cluster coming from the TableSpec cluster
field; this renders that shape for a caller-supplied cluster. -/
def specCreateDatabaseStmt (db cluster : String) : String :=
  "CREATE DATABASE IF NOT EXISTS " ++ db ++ " ON CLUSTER " ++ cluster

/-- Embedding of findStructField (lines 392-408) on a field list: index of
the first exported field whose resolved column name is the requested one,
none when no field matches. -/
def findStructFieldAux : List StructField → String → Nat → Option Nat
  | [], _, _ => none
  | f :: rest, col, idx =>
    if f.exported = false then findStructFieldAux rest col (idx + 1)
    else if getColumnName f = col then some idx
    else findStructFieldAux rest col (idx + 1)

/-- Index of the destination field a result column binds to. -/
def findStructField (fields : List StructField) (col : String) : Option Nat :=
  findStructFieldAux fields col 0

/-- One write of rows.Scan into the prepared scan targets (lines 366-374):
a column matching a destination field writes its cell there, a column with
no match goes to the dummy sink and changes nothing. Cells are opaque
driver values, modelled as Nat. -/
def bindStep (fields : List StructField) (acc : List (Option Nat)) (p : String × Nat) :
    List (Option Nat) :=
  match findStructField fields p.1 with
  | some idx => acc.set idx (some p.2)
  | none => acc

/-- Binding of one result row (lines 359-376): every destination field
starts at its zero value (none); each result column in order either writes
its cell into its matching field or is discarded into a dummy sink. -/
def bindRow (fields : List StructField) (columns : List String) (cells : List Nat) :
    List (Option Nat) :=
  (columns.zip cells).foldl (bindStep fields) (fields.map (fun _ => none))

/-- Row loop of QueryToStruct (lines 350-386): rows are processed in arrival
order; scanErr is the driver oracle for rows.Scan at each row index; on a
scan failure the loop stops with that error and nothing more is appended;
on success the bound record is appended and the loop continues. -/
def queryLoop (fields : List StructField) (columns : List String)
    (scanErr : Nat → Option String) : List (List Nat) → Nat → List (List (Option Nat)) × Option String
  | [], _ => ([], none)
  | r :: rest, k =>
    match scanErr k with
    | some e => ([], some e)
    | none =>
      let res := queryLoop fields columns scanErr rest (k + 1)
      (bindRow fields columns r :: res.1, res.2)

/-- Embedding of QueryToStruct (lines 318-389) for a slice-of-struct
destination: the destination slice contents after the call together with the
returned error. The non-pointer/non-slice/non-struct argument checks (lines
320-337) and the query/columns driver failures (lines 339-348) are outside
this model; rows.Err() at line 388 is taken to be nil. -/
def QueryToStruct (fields : List StructField) (columns : List String)
    (rows : List (List Nat)) (scanErr : Nat → Option String) :
    List (List (Option Nat)) × Option String :=
  queryLoop fields columns scanErr rows 0

/-- Batch size normalisation of NewClickHouseClient (lines 87-95): a
non-positive configured BatchSize is replaced by 1000, anything positive is
kept; no configuration is rejected. Go int is modelled as Int. -/
def NewClickHouseClient_batchSize (configBatchSize : Int) : Int :=
  if configBatchSize ≤ 0 then 1000 else configBatchSize

/-! Theorems. -/

/-- C5: for every struct field, the resolved column name follows the
precedence db tag, then json tag, then lower-cased field name (taking the
first comma-separated element of the tag that applies), and a field whose
resolved name is "-", like any non-exported field, is skipped by
analyzeStructure and consumes no column slot, while any other field
contributes exactly its resolved name. -/
theorem c5_column_name_resolution (f : StructField) (rest : List StructField) :
    (f.dbTag ≠ "" → getColumnName f = splitFirst f.dbTag) ∧
    (f.dbTag = "" → f.jsonTag ≠ "" → getColumnName f = splitFirst f.jsonTag) ∧
    (f.dbTag = "" → f.jsonTag = "" → getColumnName f = lowerStr f.name) ∧
    (f.exported = false → analyzeStructure (f :: rest) = analyzeStructure rest) ∧
    (getColumnName f = "-" → analyzeStructure (f :: rest) = analyzeStructure rest) ∧
    (f.exported = true → getColumnName f ≠ "-" →
      analyzeStructure (f :: rest) = getColumnName f :: analyzeStructure rest) := by
  refine ⟨?_, ?_, ?_, ?_, ?_, ?_⟩
  · intro h; simp [getColumnName, h]
  · intro h1 h2; simp [getColumnName, h1, h2]
  · intro h1 h2; simp [getColumnName, h1, h2]
  · intro h; simp [analyzeStructure, List.filterMap_cons, h]
  · intro h
    cases hx : f.exported <;> simp [analyzeStructure, List.filterMap_cons, hx, h]
  · intro h1 h2; simp [analyzeStructure, List.filterMap_cons, h1, h2]

/-- Witness for C5 at concrete fields: a field with both tags resolves to
the first comma-element of the db tag, one with only a json tag to the first
comma-element of the json tag, one with no tags to the lower-cased name; an
unexported field and a "-" field consume no column slot. -/
theorem c5_column_name_resolution_witness :
    getColumnName ⟨"Amount", true, "amt,omitempty", "amount_js"⟩ = "amt" ∧
    getColumnName ⟨"Amount", true, "", "amount_js,omitempty"⟩ = "amount_js" ∧
    getColumnName ⟨"Amount", true, "", ""⟩ = "amount" ∧
    analyzeStructure [⟨"secret", false, "id", ""⟩, ⟨"Skip", true, "-", ""⟩,
        ⟨"Amount", true, "amt", ""⟩]
      = ["amt"] := by
  refine ⟨?_, ?_, ?_, ?_⟩
  · exact ((c5_column_name_resolution ⟨"Amount", true, "amt,omitempty", "amount_js"⟩ []).1
      (by decide)).trans (by decide)
  · exact ((c5_column_name_resolution ⟨"Amount", true, "", "amount_js,omitempty"⟩ []).2.1
      (by decide) (by decide)).trans (by decide)
  · exact ((c5_column_name_resolution ⟨"Amount", true, "", ""⟩ []).2.2.1
      (by decide) (by decide)).trans (by decide)
  · have h1 := (c5_column_name_resolution ⟨"secret", false, "id", ""⟩
      [⟨"Skip", true, "-", ""⟩, ⟨"Amount", true, "amt", ""⟩]).2.2.2.1 (by decide)
    have h2 := (c5_column_name_resolution ⟨"Skip", true, "-", ""⟩
      [⟨"Amount", true, "amt", ""⟩]).2.2.2.2.1 (by decide)
    have h3 := (c5_column_name_resolution ⟨"Amount", true, "amt", ""⟩ []).2.2.2.2.2
      (by decide) (by decide)
    rw [h1, h2, h3]
    exact (by decide : getColumnName ⟨"Amount", true, "amt", ""⟩ = "amt") ▸ rfl

/-- C6: value conversion is total and never fails: extractValues, whose Go
signature carries an error, only ever returns ok (its error branch is dead
because convertValue is total), and every shape of runtime value is mapped
to a wire value — invalid values and nil pointers to nil, non-nil pointers
to the conversion of the referent, and unrecognized shapes (base scalars,
bare structs, slices of non-struct element type) passed through as the raw
value. -/
theorem c6_conversion_never_fails :
    (∀ item columns, extractValues item columns
      = Except.ok (extractValuesAux item 0 columns.length)) ∧
    convertValue GoValue.invalid = Wire.nil ∧
    (∀ n, convertValue (GoValue.base n) = Wire.raw (GoValue.base n)) ∧
    (∀ fs, convertValue (GoValue.structV fs) = Wire.raw (GoValue.structV fs)) ∧
    convertValue (GoValue.ptr none) = Wire.nil ∧
    (∀ v, convertValue (GoValue.ptr (some v)) = convertValue v) ∧
    (∀ elems, convertValue (GoValue.sliceB elems)
      = if elems.length = 0 then Wire.emptyList else Wire.raw (GoValue.sliceB elems)) := by
  refine ⟨fun _ _ => rfl, ?_, ?_, ?_, ?_, ?_, ?_⟩ <;> simp [convertValue]

/-- C10: the constructor never rejects a non-positive configured batch size;
the normalised batch size is always strictly positive, a configuration of at
most zero (including the unset zero value) is silently replaced by 1000, and
a positive configuration is kept as is. -/
theorem c10_batch_size_normalisation (b : Int) :
    0 < NewClickHouseClient_batchSize b ∧
    (b ≤ 0 → NewClickHouseClient_batchSize b = 1000) ∧
    (0 < b → NewClickHouseClient_batchSize b = b) := by
  unfold NewClickHouseClient_batchSize
  split <;> omega

/-- Witness for C10: the unset zero value is replaced by 1000 and a positive
configuration of 7 is kept. -/
theorem c10_batch_size_normalisation_witness :
    0 < NewClickHouseClient_batchSize 0 ∧
    NewClickHouseClient_batchSize 0 = 1000 ∧
    NewClickHouseClient_batchSize 7 = 7 :=
  ⟨(c10_batch_size_normalisation 0).1,
   (c10_batch_size_normalisation 0).2.1 (by decide),
   (c10_batch_size_normalisation 7).2.2 (by decide)⟩

/-- Decomposition helper: the database DDL statement splits around the
hardcoded cluster clause. -/
theorem createDatabaseStmt_cluster (database : String) :
    ∃ p q, createDatabaseStmt database = p ++ " ON CLUSTER bms_cluster" ++ q := by
  refine ⟨"CREATE DATABASE IF NOT EXISTS " ++ database, "", ?_⟩
  simp [createDatabaseStmt, String.append_assoc]

/-- Decomposition helper: the clustered CREATE TABLE statement splits around
the hardcoded cluster clause. -/
theorem createTableStmt_cluster (database table order desc : String) (cols : List Column) :
    ∃ p q, createTableStmt database table order desc cols
      = p ++ " ON CLUSTER bms_cluster" ++ q := by
  have hsplit : (" ON CLUSTER bms_cluster (\n" : String)
      = " ON CLUSTER bms_cluster" ++ " (\n" := by decide
  refine ⟨"CREATE TABLE IF NOT EXISTS " ++ database ++ "." ++ table,
    " (\n" ++ colDefs cols
      ++ "\n)\nENGINE = ReplicatedMergeTree(\x27/clickhouse/tables/" ++ database
      ++ "/\x7bshard\x7d/" ++ table ++ "\x27, \x27\x7breplica\x7d\x27)\n"
      ++ "PARTITION BY toYYYYMM(created_at)\n"
      ++ "ORDER BY (" ++ order ++ ", intHash64(created_at))\n"
      ++ "SAMPLE BY intHash64(created_at)\n"
      ++ "SETTINGS index_granularity = 8192\n"
      ++ "COMMENT \x27" ++ desc ++ "\x27;", ?_⟩
  simp only [createTableStmt, hsplit, String.append_assoc]

/-- Decomposition helper: the distributed CREATE TABLE statement splits
around the hardcoded cluster clause. -/
theorem createDistTableStmt_cluster (distDB localTable desc : String) (cols : List Column) :
    ∃ p q, createDistTableStmt distDB localTable desc cols
      = p ++ " ON CLUSTER bms_cluster" ++ q := by
  have hsplit : (" ON CLUSTER bms_cluster (\n" : String)
      = " ON CLUSTER bms_cluster" ++ " (\n" := by decide
  refine ⟨"CREATE TABLE IF NOT EXISTS " ++ distDB ++ "." ++ (localTable ++ "_distributed"),
    " (\n" ++ colDefs cols
      ++ "\n)\nENGINE = Distributed(\x27bms_cluster\x27, \x27" ++ distDB ++ "\x27, \x27"
      ++ localTable ++ "\x27)\n"
      ++ "COMMENT \x27" ++ desc ++ "\x27;", ?_⟩
  simp only [createDistTableStmt, hsplit, String.append_assoc]

/-- Counterexample to C2: the source has no caller-supplied cluster — the
clause is the hardcoded literal bms_cluster. For the database "d" the
emitted statement equals the spec shape instantiated with cluster
"bms_cluster", and differs from the spec shape instantiated with the
caller cluster "c" of the spec section 8 scenario, so no caller-chosen
cluster name can appear in the clause. -/
theorem c2_counterexample :
    createDatabaseStmt "d" = specCreateDatabaseStmt "d" "bms_cluster" ∧
    createDatabaseStmt "d" ≠ specCreateDatabaseStmt "d" "c" := by
  constructor
  · decide
  · decide

/-- C2 amended: every statement issued by CreateTable and by
CreateDistributedTable carries an ON CLUSTER clause naming the fixed,
hardcoded cluster bms_cluster (the cluster is not taken from the caller). -/
theorem c2_on_cluster_hardcoded (execErr : String → Option String)
    (database table order desc distDB localTable : String) (cols cols2 : List Column) :
    (∀ s ∈ (CreateTable execErr database table order desc cols).1,
      ∃ p q, s = p ++ " ON CLUSTER bms_cluster" ++ q) ∧
    (∀ s ∈ (CreateDistributedTable execErr distDB localTable desc cols2).1,
      ∃ p q, s = p ++ " ON CLUSTER bms_cluster" ++ q) := by
  constructor
  · intro s hs
    have hdb := createDatabaseStmt_cluster database
    have htb := createTableStmt_cluster database table order desc cols
    by_cases hc : (cols.any (fun col => col.name == "created_at")) = false
    · simp [CreateTable, hc] at hs
    · rw [Bool.not_eq_false] at hc
      rcases hdbe : execErr (createDatabaseStmt database) with _ | e
      · rcases hte : execErr (createTableStmt database table order desc cols) with _ | e2
        · simp [CreateTable, hc, hdbe, hte] at hs
          rcases hs with h | h <;> subst h
          · exact hdb
          · exact htb
        · simp [CreateTable, hc, hdbe, hte] at hs
          rcases hs with h | h <;> subst h
          · exact hdb
          · exact htb
      · simp [CreateTable, hc, hdbe] at hs
        subst hs; exact hdb
  · intro s hs
    have hdb := createDatabaseStmt_cluster distDB
    have htb := createDistTableStmt_cluster distDB localTable desc cols2
    by_cases hc : cols2.length = 0
    · simp [CreateDistributedTable, hc] at hs
    · rcases hdbe : execErr (createDatabaseStmt distDB) with _ | e
      · rcases hte : execErr (createDistTableStmt distDB localTable desc cols2) with _ | e2
        · simp [CreateDistributedTable, hc, hdbe, hte] at hs
          rcases hs with h | h <;> subst h
          · exact hdb
          · exact htb
        · simp [CreateDistributedTable, hc, hdbe, hte] at hs
          rcases hs with h | h <;> subst h
          · exact hdb
          · exact htb
      · simp [CreateDistributedTable, hc, hdbe] at hs
        subst hs; exact hdb

/-- Witness for C2 amended: for a concrete call that succeeds, both issued
statements split around the hardcoded cluster clause. -/
theorem c2_on_cluster_hardcoded_witness :
    (∀ s ∈ (CreateTable (fun _ => none) "d" "t" "id" "demo"
        [⟨"id", "UInt64"⟩, ⟨"created_at", "DateTime"⟩]).1,
      ∃ p q, s = p ++ " ON CLUSTER bms_cluster" ++ q) ∧
    (∀ s ∈ (CreateDistributedTable (fun _ => none) "d" "t" "demo"
        [⟨"id", "UInt64"⟩]).1,
      ∃ p q, s = p ++ " ON CLUSTER bms_cluster" ++ q) := by
  have h := c2_on_cluster_hardcoded (fun _ => none) "d" "t" "id" "demo" "d" "t"
    [⟨"id", "UInt64"⟩, ⟨"created_at", "DateTime"⟩] [⟨"id", "UInt64"⟩]
  exact h

/-- C8: CreateTable fails, before issuing any statement, exactly when no
declared column is named created_at, with the SchemaError text of the
source; when a created_at column is declared and the driver accepts both
statements the call succeeds, issuing exactly the CREATE DATABASE and
CREATE TABLE statements, both of which use create-if-not-exists semantics
(hence the call is safely re-issuable). -/
theorem c8_create_table_created_at (execErr : String → Option String)
    (database table order desc : String) (cols : List Column) :
    (cols.any (fun col => col.name == "created_at") = false →
      CreateTable execErr database table order desc cols
        = ([], some ("created_at column is required for table "
            ++ database ++ "." ++ table))) ∧
    (cols.any (fun col => col.name == "created_at") = true →
      (∀ s, execErr s = none) →
      CreateTable execErr database table order desc cols
        = ([createDatabaseStmt database, createTableStmt database table order desc cols],
           none) ∧
      (∃ r, createDatabaseStmt database = "CREATE DATABASE IF NOT EXISTS " ++ r) ∧
      (∃ r, createTableStmt database table order desc cols
        = "CREATE TABLE IF NOT EXISTS " ++ r)) := by
  constructor
  · intro h
    unfold CreateTable
    simp [h]
  · intro h hok
    refine ⟨?_, ⟨database ++ " ON CLUSTER bms_cluster", ?_⟩,
      ⟨database ++ "." ++ table ++ " ON CLUSTER bms_cluster (\n" ++ colDefs cols
        ++ ("\n)\nENGINE = ReplicatedMergeTree(\x27/clickhouse/tables/" ++ database
        ++ "/\x7bshard\x7d/" ++ table ++ "\x27, \x27\x7breplica\x7d\x27)\n"
        ++ "PARTITION BY toYYYYMM(created_at)\n"
        ++ "ORDER BY (" ++ order ++ ", intHash64(created_at))\n"
        ++ "SAMPLE BY intHash64(created_at)\n"
        ++ "SETTINGS index_granularity = 8192\n"
        ++ "COMMENT \x27" ++ desc ++ "\x27;"), ?_⟩⟩
    · unfold CreateTable
      simp [h, hok]
    · simp [createDatabaseStmt, String.append_assoc]
    · simp [createTableStmt, String.append_assoc]

/-- Witness for C8: a column list without created_at is rejected with the
SchemaError text and no statement issued; adding created_at makes the same
call succeed with the two if-not-exists statements. -/
theorem c8_create_table_created_at_witness :
    CreateTable (fun _ => none) "d" "t" "id" "demo" [⟨"id", "UInt64"⟩]
      = ([], some "created_at column is required for table d.t") ∧
    CreateTable (fun _ => none) "d" "t" "id" "demo"
        [⟨"id", "UInt64"⟩, ⟨"created_at", "DateTime"⟩]
      = ([createDatabaseStmt "d",
          createTableStmt "d" "t" "id" "demo" [⟨"id", "UInt64"⟩, ⟨"created_at", "DateTime"⟩]],
         none) := by
  constructor
  · exact ((c8_create_table_created_at (fun _ => none) "d" "t" "id" "demo"
      [⟨"id", "UInt64"⟩]).1 (by decide)).trans (by decide)
  · exact ((c8_create_table_created_at (fun _ => none) "d" "t" "id" "demo"
      [⟨"id", "UInt64"⟩, ⟨"created_at", "DateTime"⟩]).2 (by decide) (fun _ => rfl)).1

/-- Key-set lemma for Go map insertion: inserting k leaves exactly the old
keys plus k. -/
theorem mapInsert_keys (m : List (String × Wire)) (k : String) (v : Wire) (x : String) :
    x ∈ (mapInsert m k v).map Prod.fst ↔ (x ∈ m.map Prod.fst ∨ x = k) := by
  unfold mapInsert
  split
  case isTrue h =>
    rcases h with ⟨p0, hp0, hp0k⟩
    constructor
    · intro hx
      rcases List.mem_map.mp hx with ⟨p1, hp1, hp1x⟩
      rcases List.mem_map.mp hp1 with ⟨p, hp, hpp⟩
      by_cases hk : p.1 = k
      · right
        rw [if_pos hk] at hpp
        rw [← hpp] at hp1x
        exact hp1x.symm
      · left
        rw [if_neg hk] at hpp
        rw [← hpp] at hp1x
        exact List.mem_map.mpr ⟨p, hp, hp1x⟩
    · intro hx
      rcases hx with hx | hx
      · rcases List.mem_map.mp hx with ⟨p, hp, hpx⟩
        by_cases hk : p.1 = k
        · refine List.mem_map.mpr ⟨(k, v), List.mem_map.mpr ⟨p0, hp0, by rw [if_pos hp0k]⟩, ?_⟩
          rw [← hpx, hk]
        · exact List.mem_map.mpr ⟨p, List.mem_map.mpr ⟨p, hp, by rw [if_neg hk]⟩, hpx⟩
      · refine List.mem_map.mpr ⟨(k, v), List.mem_map.mpr ⟨p0, hp0, by rw [if_pos hp0k]⟩, hx.symm⟩
  case isFalse h =>
    constructor
    · intro hx
      rcases List.mem_map.mp hx with ⟨p, hp, hpx⟩
      rcases List.mem_append.mp hp with hp1 | hp2
      · exact Or.inl (List.mem_map.mpr ⟨p, hp1, hpx⟩)
      · right
        rw [List.mem_singleton.mp hp2] at hpx
        exact hpx.symm
    · intro hx
      rcases hx with hx | hx
      · rcases List.mem_map.mp hx with ⟨p, hp, hpx⟩
        exact List.mem_map.mpr ⟨p, List.mem_append.mpr (Or.inl hp), hpx⟩
      · exact List.mem_map.mpr
          ⟨(k, v), List.mem_append.mpr (Or.inr (List.mem_singleton.mpr rfl)), hx.symm⟩

/-- Key-set lemma for the left fold that builds one element map. -/
theorem foldl_mapInsert_keys (ps : List (String × Wire)) :
    ∀ (acc : List (String × Wire)) (x : String),
      x ∈ ((ps.foldl (fun m p => mapInsert m p.1 p.2) acc).map Prod.fst) ↔
        (x ∈ acc.map Prod.fst ∨ x ∈ ps.map Prod.fst) := by
  induction ps with
  | nil => simp
  | cons p rest ih =>
    intro acc x
    rw [List.foldl_cons, ih, mapInsert_keys]
    simp
    tauto

/-- The inner conversion loop produces exactly the (resolved name, converted
value) pairs of the included fields, in order. -/
theorem convertFields_eq (fs : List (StructField × GoValue)) :
    convertFields fs = (included fs).map (fun p => (getColumnName p.1, convertValue p.2)) := by
  induction fs with
  | nil => simp [convertFields, included]
  | cons p rest ih =>
    rcases p with ⟨f, v⟩
    by_cases hx : f.exported = false
    · simp [convertFields, included, hx, ih]
    · rw [Bool.not_eq_false] at hx
      by_cases hn : getColumnName f = "-"
      · simp [convertFields, included, hx, hn, ih]
      · simp [convertFields, included, hx, hn, ih]

/-- The introspected column list is the resolved names of the included
fields, in order. -/
theorem analyzeStructure_eq (item : List (StructField × GoValue)) :
    analyzeStructure (item.map Prod.fst)
      = (included item).map (fun p => getColumnName p.1) := by
  induction item with
  | nil => simp [analyzeStructure, included]
  | cons p rest ih =>
    rcases p with ⟨f, v⟩
    by_cases hx : f.exported = false
    · simp [analyzeStructure, List.filterMap_cons, included, hx] at ih ⊢
      exact ih
    · rw [Bool.not_eq_false] at hx
      by_cases hn : getColumnName f = "-"
      · simp [analyzeStructure, List.filterMap_cons, included, hx, hn] at ih ⊢
        exact ih
      · simp [analyzeStructure, List.filterMap_cons, included, hx, hn] at ih ⊢
        exact ih

/-- The nested-element loop builds one map per element, in order. -/
theorem convertElems_eq (elems : List (List (StructField × GoValue))) :
    convertElems elems = elems.map buildElemMap := by
  induction elems with
  | nil => simp [convertElems]
  | cons e rest ih => simp [convertElems, buildElemMap, ih]

/-- Key set of one element map: exactly the introspected column names of
that element. -/
theorem buildElemMap_keys (fs : List (StructField × GoValue)) (x : String) :
    x ∈ (buildElemMap fs).map Prod.fst ↔ x ∈ analyzeStructure (fs.map Prod.fst) := by
  rw [buildElemMap, foldl_mapInsert_keys, convertFields_eq, analyzeStructure_eq]
  simp [List.map_map, Function.comp]

/-- C7: a field holding a sequence of structured records converts to an
ordered sequence of name-to-value maps, one per element in order, whose key
set is exactly the column list obtained by introspecting the element record
alone (same resolution rule and same skipping of unexported and "-"
fields); the empty sequence converts to the empty interface slice, which is
distinct from the nil (absent) wire value. -/
theorem c7_nested_struct_conversion (elems : List (List (StructField × GoValue))) :
    convertValue (GoValue.sliceS []) = Wire.emptyList ∧
    Wire.emptyList ≠ Wire.nil ∧
    (elems ≠ [] →
      convertValue (GoValue.sliceS elems) = Wire.maps (elems.map buildElemMap) ∧
      (elems.map buildElemMap).length = elems.length ∧
      (∀ fs ∈ elems, ∀ x,
        x ∈ (buildElemMap fs).map Prod.fst ↔ x ∈ analyzeStructure (fs.map Prod.fst))) := by
  refine ⟨by simp [convertValue], fun h => Wire.noConfusion h, fun hne => ⟨?_, ?_, ?_⟩⟩
  · have hlen : elems.length ≠ 0 := fun h => hne (List.length_eq_zero.mp h)
    simp [convertValue, hlen, convertElems_eq]
  · simp
  · intro fs _ x
    exact buildElemMap_keys fs x

/-- Witness for C7: a two-element nested slice whose element type has an id
field, a "-" field and an unexported field converts to two maps in order,
each keyed exactly by the introspected column list of the element type. -/
theorem c7_nested_struct_conversion_witness :
    convertValue (GoValue.sliceS
        [[(⟨"Id", true, "", ""⟩, GoValue.base 1), (⟨"Skip", true, "-", ""⟩, GoValue.base 2),
          (⟨"hidden", false, "", ""⟩, GoValue.base 3)],
         [(⟨"Id", true, "", ""⟩, GoValue.base 4), (⟨"Skip", true, "-", ""⟩, GoValue.base 5),
          (⟨"hidden", false, "", ""⟩, GoValue.base 6)]])
      = Wire.maps
          ([[(⟨"Id", true, "", ""⟩, GoValue.base 1), (⟨"Skip", true, "-", ""⟩, GoValue.base 2),
             (⟨"hidden", false, "", ""⟩, GoValue.base 3)],
            [(⟨"Id", true, "", ""⟩, GoValue.base 4), (⟨"Skip", true, "-", ""⟩, GoValue.base 5),
             (⟨"hidden", false, "", ""⟩, GoValue.base 6)]].map buildElemMap) ∧
    (∀ fs ∈
        [[(⟨"Id", true, "", ""⟩, GoValue.base 1), (⟨"Skip", true, "-", ""⟩, GoValue.base 2),
          (⟨"hidden", false, "", ""⟩, GoValue.base 3)],
         [(⟨"Id", true, "", ""⟩, GoValue.base 4), (⟨"Skip", true, "-", ""⟩, GoValue.base 5),
          (⟨"hidden", false, "", ""⟩, GoValue.base 6)]],
      ∀ x, x ∈ (buildElemMap fs).map Prod.fst ↔ x ∈ analyzeStructure (fs.map Prod.fst)) := by
  have h := c7_nested_struct_conversion
    [[(⟨"Id", true, "", ""⟩, GoValue.base 1), (⟨"Skip", true, "-", ""⟩, GoValue.base 2),
      (⟨"hidden", false, "", ""⟩, GoValue.base 3)],
     [(⟨"Id", true, "", ""⟩, GoValue.base 4), (⟨"Skip", true, "-", ""⟩, GoValue.base 5),
      (⟨"hidden", false, "", ""⟩, GoValue.base 6)]]
  have h2 := h.2.2 (by simp)
  exact ⟨h2.1, h2.2.2⟩

/-- A mapped list of appended events contains no sent event. -/
theorem filterMap_sentOf_appended (l : List Nat) (g : Nat → List Wire) :
    (l.map (fun j => Event.appended j (g j))).filterMap sentOf = [] := by
  induction l with
  | nil => simp
  | cons a rest ih => simp [sentOf, ih]

/-- Closed form of the append loop when every append in the chunk succeeds:
one appended event per record index of [j, endIdx), in order, and no
error. -/
theorem appendLoop_ok (drv : BatchDriver) (data : List RecordV) (ncols endIdx : Nat) :
    ∀ fuel j, endIdx ≤ j + fuel →
      (∀ j2, j ≤ j2 → j2 < endIdx → drv.appendErr j2 = none) →
      appendLoop drv data ncols endIdx fuel j
        = ((List.range' j (endIdx - j)).map
            (fun j2 => Event.appended j2 (extractValuesAux (data.getD j2 []) 0 ncols)),
           none) := by
  intro fuel
  induction fuel with
  | zero =>
    intro j hf _
    have h0 : endIdx - j = 0 := by omega
    simp [appendLoop, h0]
  | succ fuel ih =>
    intro j hf hok
    by_cases hj : j < endIdx
    · have happ : drv.appendErr j = none := hok j le_rfl hj
      have hrec := ih (j + 1) (by omega) (fun j2 h1 h2 => hok j2 (by omega) h2)
      have hrange : endIdx - j = (endIdx - (j + 1)) + 1 := by omega
      simp [appendLoop, hj, happ, hrec, hrange, List.range'_succ]
    · have h0 : endIdx - j = 0 := by omega
      simp [appendLoop, hj, h0]

/-- Result of the chunk loop when every driver operation succeeds: no error,
and the sent events are exactly the walked chunk ranges. -/
theorem insertLoop_ok (drv : BatchDriver) (data : List RecordV) (ncols B : Nat) (hB : 0 < B)
    (hok1 : ∀ i, drv.prepareErr i = none) (hok2 : ∀ j, drv.appendErr j = none)
    (hok3 : ∀ i, drv.sendErr i = none) :
    ∀ fuel i, data.length ≤ i + fuel →
      (insertLoop drv data ncols B fuel i).2 = none ∧
      (insertLoop drv data ncols B fuel i).1.filterMap sentOf
        = chunkList data.length B fuel i := by
  intro fuel
  induction fuel with
  | zero => intro i hf; simp [insertLoop, chunkList]
  | succ fuel ih =>
    intro i hf
    by_cases hi : i < data.length
    · have happ := appendLoop_ok drv data ncols (min (i + B) data.length)
        (min (i + B) data.length - i) i (by omega) (fun j2 _ _ => hok2 j2)
      have hrec := ih (i + B) (by omega)
      constructor
      · simp [insertLoop, hi, hok1 i, happ, hok3 i, hrec.1]
      · simp [insertLoop, hi, hok1 i, happ, hok3 i, chunkList, sentOf,
          List.filterMap_append, filterMap_sentOf_appended, hrec.2]
    · simp [insertLoop, hi, chunkList]

/-- Length of the chunk range list: the ceiling of the remaining record
count divided by the batch size. -/
theorem chunkList_length (dataLen B : Nat) (hB : 0 < B) :
    ∀ fuel i, dataLen ≤ i + fuel →
      (chunkList dataLen B fuel i).length = (dataLen - i + B - 1) / B := by
  intro fuel
  induction fuel with
  | zero =>
    intro i hf
    have h0 : dataLen - i = 0 := by omega
    simp only [chunkList, List.length_nil, h0]
    exact (Nat.div_eq_of_lt (by omega)).symm
  | succ fuel ih =>
    intro i hf
    by_cases hi : i < dataLen
    · have hrec := ih (i + B) (by omega)
      simp only [chunkList, hi, if_true, List.length_cons, hrec]
      have hsub : dataLen - (i + B) = dataLen - i - B := by omega
      rw [hsub]
      have hM1 : 1 ≤ dataLen - i := by omega
      by_cases hMB : dataLen - i ≤ B
      · have h1 : dataLen - i - B = 0 := by omega
        rw [h1, Nat.div_eq_of_lt (by omega)]
        exact (Nat.div_eq_of_lt_le (by omega) (by omega)).symm
      · have h2 : dataLen - i - B + B - 1 = dataLen - i - 1 := by omega
        have h3 : dataLen - i + B - 1 = (dataLen - i - 1) + B := by omega
        rw [h2, h3, Nat.add_div_right _ hB]
    · have h0 : dataLen - i = 0 := by omega
      simp only [chunkList, hi, if_false, List.length_nil, h0]
      exact (Nat.div_eq_of_lt (by omega)).symm

/-- Entry k of the chunk range list: the chunk starts at i + k*B and ends at
min (i + k*B + B) dataLen, so chunks are consecutive. -/
theorem chunkList_get (dataLen B : Nat) (hB : 0 < B) :
    ∀ fuel i k (hk : k < (chunkList dataLen B fuel i).length),
      (chunkList dataLen B fuel i).get ⟨k, hk⟩
        = (i + k * B, min (i + k * B + B) dataLen) := by
  intro fuel
  induction fuel with
  | zero => intro i k hk; simp [chunkList] at hk
  | succ fuel ih =>
    intro i k hk
    by_cases hi : i < dataLen
    · cases k with
      | zero => simp [chunkList, hi]
      | succ k2 =>
        have hcons : chunkList dataLen B (fuel + 1) i
            = (i, min (i + B) dataLen) :: chunkList dataLen B fuel (i + B) := by
          simp [chunkList, hi]
        have hk2 : k2 < (chunkList dataLen B fuel (i + B)).length := by
          have hx : k2 + 1 < (chunkList dataLen B (fuel + 1) i).length := hk
          rw [hcons, List.length_cons] at hx
          omega
        have hrec := ih (i + B) k2 hk2
        have harith : i + B + k2 * B = i + (k2 + 1) * B := by ring
        rw [List.get_of_eq hcons]
        simp only [Fin.cast_mk, List.get_cons_succ]
        rw [hrec, harith]
    · simp [chunkList, hi] at hk

/-- C4: with a positive batch size B and a driver on which every operation
succeeds, BatchInsert returns no error, its sent chunks are exactly the
chunk ranges of the data length N: there are ceil(N/B) of them, chunk k
covers [k*B, min (k*B+B) N) so chunks are consecutive, every chunk except
possibly the last has size B, and the last has size N mod B, or B when B
divides N. -/
theorem c4_chunk_partitioning (drv : BatchDriver) (B : Nat) (data : List RecordV)
    (hB : 0 < B)
    (hok1 : ∀ i, drv.prepareErr i = none) (hok2 : ∀ j, drv.appendErr j = none)
    (hok3 : ∀ i, drv.sendErr i = none) :
    (BatchInsert drv B data).2 = none ∧
    (BatchInsert drv B data).1.filterMap sentOf = chunks data.length B ∧
    (chunks data.length B).length = (data.length + B - 1) / B ∧
    (∀ k (hk : k < (chunks data.length B).length),
      (chunks data.length B).get ⟨k, hk⟩ = (k * B, min (k * B + B) data.length)) ∧
    (∀ k (hk : k < (chunks data.length B).length), k + 1 < (chunks data.length B).length →
      ((chunks data.length B).get ⟨k, hk⟩).2 - ((chunks data.length B).get ⟨k, hk⟩).1 = B) ∧
    (∀ hne : chunks data.length B ≠ [],
      ((chunks data.length B).getLast hne).2 - ((chunks data.length B).getLast hne).1
        = if data.length % B = 0 then B else data.length % B) := by
  have hlen := chunkList_length data.length B hB data.length 0 (by omega)
  have hget := fun k hk => chunkList_get data.length B hB data.length 0 k hk
  have hlen2 : (chunks data.length B).length = (data.length + B - 1) / B := by
    simpa [chunks] using hlen
  have hrun : (BatchInsert drv B data).2 = none ∧
      (BatchInsert drv B data).1.filterMap sentOf = chunks data.length B := by
    by_cases h0 : data.length = 0
    · constructor
      · simp [BatchInsert, h0]
      · simp [BatchInsert, h0, chunks, chunkList]
    · have := insertLoop_ok drv data
        (analyzeStructure ((data.headD []).map Prod.fst)).length B hB hok1 hok2 hok3
        data.length 0 (by omega)
      constructor
      · simp only [BatchInsert, h0, if_false]
        exact this.1
      · simp only [BatchInsert, h0, if_false]
        exact this.2
  refine ⟨hrun.1, hrun.2, hlen2, ?_, ?_, ?_⟩
  · intro k hk
    have hg := hget k hk
    simpa [chunks] using hg
  · intro k hk hk1
    have hg := hget k hk
    simp only [chunks]
    rw [hg]
    have hcount : k + 2 ≤ (data.length + B - 1) / B := by
      rw [hlen2] at hk1
      omega
    have hmul : (k + 2) * B ≤ data.length + B - 1 :=
      (Nat.le_div_iff_mul_le hB).mp hcount
    have hexp : (k + 2) * B = k * B + 2 * B := by ring
    simp only [Nat.zero_add]
    have hle : k * B + B ≤ data.length := by omega
    rw [Nat.min_eq_left hle]
    omega
  · intro hne
    have hpos : 0 < (chunks data.length B).length := List.length_pos.mpr hne
    have hN : 0 < data.length := by
      by_contra hc
      have h0 : data.length = 0 := by omega
      rw [chunks, h0] at hpos
      simp [chunkList] at hpos
    have hlenCL : (chunkList data.length B data.length 0).length
        = (data.length + B - 1) / B := by simpa using hlen
    rw [List.getLast_eq_get]
    simp only [chunks]
    have hkCL : (chunkList data.length B data.length 0).length - 1
        < (chunkList data.length B data.length 0).length := by
      have h2 := hpos
      simp only [chunks] at h2
      omega
    rw [hget _ hkCL]
    simp only [Nat.zero_add]
    obtain ⟨q, r, hqr, hrB, hmodeq⟩ :
        ∃ q r, data.length = B * q + r ∧ r < B ∧ data.length % B = r :=
      ⟨data.length / B, data.length % B, (Nat.div_add_mod data.length B).symm,
        Nat.mod_lt _ hB, rfl⟩
    rw [hmodeq]
    by_cases hr0 : r = 0
    · rw [if_pos hr0]
      have hq1 : 0 < q := by
        rcases Nat.eq_zero_or_pos q with h | h
        · rw [h, Nat.mul_zero] at hqr; omega
        · exact h
      obtain ⟨q2, rfl⟩ : ∃ q2, q = q2 + 1 := ⟨q - 1, by omega⟩
      have hB1 : B * (q2 + 1) = B * q2 + B := by ring
      have hLq : (data.length + B - 1) / B = q2 + 1 := by
        have h1 : data.length + B - 1 = B * (q2 + 1) + (B - 1) := by omega
        rw [h1, Nat.mul_add_div hB, Nat.div_eq_of_lt (by omega)]
      rw [hlenCL, hLq]
      simp only [Nat.add_sub_cancel]
      have hq2B : q2 * B + B = B * (q2 + 1) := by ring
      rw [Nat.min_eq_left (by omega)]
      omega
    · rw [if_neg hr0]
      have hBq : B * (q + 1) = B * q + B := by ring
      have hLq : (data.length + B - 1) / B = q + 1 := by
        have h1 : data.length + B - 1 = B * (q + 1) + (r - 1) := by omega
        rw [h1, Nat.mul_add_div hB, Nat.div_eq_of_lt (by omega)]
      rw [hlenCL, hLq]
      simp only [Nat.add_sub_cancel]
      have hqB : q * B = B * q := by ring
      rw [Nat.min_eq_right (by omega)]
      omega

set_option maxRecDepth 10000 in
/-- Witness for C4, the scenario of spec section 8: 2500 records at batch
size 1000 commit exactly the three chunks [0,1000), [1000,2000),
[2000,2500) and return no error. -/
theorem c4_chunk_partitioning_witness :
    (BatchInsert ⟨fun _ => none, fun _ => none, fun _ => none⟩ 1000
      (List.replicate 2500 [])).2 = none ∧
    (BatchInsert ⟨fun _ => none, fun _ => none, fun _ => none⟩ 1000
      (List.replicate 2500 [])).1.filterMap sentOf = chunks 2500 1000 ∧
    chunks 2500 1000 = [(0, 1000), (1000, 2000), (2000, 2500)] := by
  have h := c4_chunk_partitioning ⟨fun _ => none, fun _ => none, fun _ => none⟩ 1000
    (List.replicate 2500 []) (by decide) (fun _ => rfl) (fun _ => rfl) (fun _ => rfl)
  refine ⟨h.1, ?_, by decide⟩
  have h2 := h.2.1
  simpa using h2

/-- Closed form of the extract loop when the column budget is not smaller
than the number of included fields: the break never fires and the tuple is
the in-order conversion of every included field. -/
theorem extractValuesAux_spec (item : List (StructField × GoValue)) :
    ∀ colIdx ncols, colIdx + (included item).length ≤ ncols →
      extractValuesAux item colIdx ncols
        = (included item).map (fun p => convertValue p.2) := by
  induction item with
  | nil => intro colIdx ncols h; simp [extractValuesAux, included]
  | cons p rest ih =>
    rcases p with ⟨f, v⟩
    intro colIdx ncols h
    by_cases hx : f.exported = false
    · simp only [included, hx, if_true] at h ⊢
      simp only [extractValuesAux, hx, if_true]
      exact ih _ _ h
    · rw [Bool.not_eq_false] at hx
      by_cases hn : getColumnName f = "-"
      · simp only [included, hx, hn] at h ⊢
        simp only [extractValuesAux, hx, hn]
        simp at h ⊢
        exact ih _ _ h
      · have hlen : (included ((f, v) :: rest)).length = (included rest).length + 1 := by
          simp [included, hx, hn]
        have hno : ¬ ncols ≤ colIdx := by omega
        simp [extractValuesAux, included, hx, hn, hno,
          ih (colIdx + 1) ncols (by omega)]

/-- Appended events of the append loop: each carries its record index from
the chunk and the extracted tuple of that record. -/
theorem appendLoop_appended (drv : BatchDriver) (data : List RecordV) (ncols endIdx : Nat) :
    ∀ fuel j j2 t, Event.appended j2 t ∈ (appendLoop drv data ncols endIdx fuel j).1 →
      j ≤ j2 ∧ j2 < endIdx ∧ t = extractValuesAux (data.getD j2 []) 0 ncols := by
  intro fuel
  induction fuel with
  | zero => intro j j2 t h; simp [appendLoop] at h
  | succ fuel ih =>
    intro j j2 t h
    by_cases hj : j < endIdx
    · rcases happ : drv.appendErr j with _ | e
      · simp only [appendLoop, hj, if_true, happ, List.mem_cons,
          Event.appended.injEq] at h
        rcases h with h | h
        · rcases h with ⟨h1, h2⟩
          subst h1
          exact ⟨le_rfl, hj, h2⟩
        · have := ih (j + 1) j2 t h
          exact ⟨by omega, this.2.1, this.2.2⟩
      · simp [appendLoop, hj, happ] at h
    · simp [appendLoop, hj] at h

/-- Appended events of the chunk loop: each carries a record index below the
data length and the extracted tuple of that record. -/
theorem insertLoop_appended (drv : BatchDriver) (data : List RecordV) (ncols B : Nat) :
    ∀ fuel i j t, Event.appended j t ∈ (insertLoop drv data ncols B fuel i).1 →
      j < data.length ∧ t = extractValuesAux (data.getD j []) 0 ncols := by
  intro fuel
  induction fuel with
  | zero => intro i j t h; simp [insertLoop] at h
  | succ fuel ih =>
    intro i j t h
    by_cases hi : i < data.length
    · rcases hprep : drv.prepareErr i with _ | e
      · rcases hA : appendLoop drv data ncols (min (i + B) data.length)
            (min (i + B) data.length - i) i with ⟨aevs, ares⟩
        have hsub : Event.appended j t ∈ aevs →
            j < data.length ∧ t = extractValuesAux (data.getD j []) 0 ncols := by
          intro hmem
          have hap := appendLoop_appended drv data ncols (min (i + B) data.length)
            (min (i + B) data.length - i) i j t (by rw [hA]; exact hmem)
          exact ⟨by omega, hap.2.2⟩
        rcases ares with _ | err
        · rcases hsend : drv.sendErr i with _ | e2
          · simp only [insertLoop, hi, if_true, hprep, hA, hsend, List.mem_cons,
              List.mem_append] at h
            rcases h with h | h | h | h
            · simp at h
            · exact hsub h
            · simp at h
            · exact ih (i + B) j t h
          · simp only [insertLoop, hi, if_true, hprep, hA, hsend, List.mem_cons] at h
            rcases h with h | h
            · simp at h
            · exact hsub h
        · simp only [insertLoop, hi, if_true, hprep, hA, List.mem_cons] at h
          rcases h with h | h
          · simp at h
          · exact hsub h
      · simp [insertLoop, hi, hprep] at h
    · simp [insertLoop, hi] at h

/-- Length of the introspected column list equals the length of the
included-field list. -/
theorem included_length (item : List (StructField × GoValue)) :
    (analyzeStructure (item.map Prod.fst)).length = (included item).length := by
  rw [analyzeStructure_eq]
  simp

/-- C3: on a homogeneous record sequence (every record has the field list of
element 0), every tuple appended during BatchInsert — whatever the driver
does — is the in-order conversion of the included fields of its record, the
introspected column list is the in-order resolved names of those same
fields, and the two have the same length C, so entry i of the tuple is the
converted value of the field resolved to column i. -/
theorem c3_tuple_alignment (drv : BatchDriver) (B : Nat) (data : List RecordV)
    (hom : ∀ r ∈ data, r.map Prod.fst = (data.headD []).map Prod.fst) :
    ∀ j t, Event.appended j t ∈ (BatchInsert drv B data).1 →
      t = (included (data.getD j [])).map (fun p => convertValue p.2) ∧
      analyzeStructure ((data.headD []).map Prod.fst)
        = (included (data.getD j [])).map (fun p => getColumnName p.1) ∧
      t.length = (analyzeStructure ((data.headD []).map Prod.fst)).length := by
  intro j t h
  by_cases hlen : data.length = 0
  · simp [BatchInsert, hlen] at h
  · simp only [BatchInsert, hlen, if_false] at h
    have hj := insertLoop_appended drv data
      (analyzeStructure ((data.headD []).map Prod.fst)).length B data.length 0 j t h
    have hmem : data.getD j [] ∈ data := by
      rw [List.getD_eq_getElem?_getD, List.getElem?_eq_getElem hj.1]
      exact List.getElem_mem _
    have hfields : (data.getD j []).map Prod.fst = (data.headD []).map Prod.fst :=
      hom _ hmem
    have hcols : analyzeStructure ((data.headD []).map Prod.fst)
        = (included (data.getD j [])).map (fun p => getColumnName p.1) := by
      rw [← hfields, analyzeStructure_eq]
    have hext : extractValuesAux (data.getD j [])
        0 (analyzeStructure ((data.headD []).map Prod.fst)).length
        = (included (data.getD j [])).map (fun p => convertValue p.2) := by
      apply extractValuesAux_spec
      rw [← hfields, included_length]
      omega
    refine ⟨hj.2.trans hext, hcols, ?_⟩
    rw [hj.2, hext, hcols]
    simp

/-- Witness for C3 at a concrete two-record ingestion: the tuple appended
for record 0 is the converted included-field list, aligned with the
introspected column list. -/
theorem c3_tuple_alignment_witness :
    [Wire.raw (GoValue.base 5)]
      = (included [(⟨"Id", true, "", ""⟩, GoValue.base 5)]).map
          (fun p => convertValue p.2) ∧
    analyzeStructure
        (([[(⟨"Id", true, "", ""⟩, GoValue.base 5)],
           [(⟨"Id", true, "", ""⟩, GoValue.base 6)]].headD []).map Prod.fst)
      = (included [(⟨"Id", true, "", ""⟩, GoValue.base 5)]).map
          (fun p => getColumnName p.1) ∧
    ([Wire.raw (GoValue.base 5)] : List Wire).length
      = (analyzeStructure
          (([[(⟨"Id", true, "", ""⟩, GoValue.base 5)],
             [(⟨"Id", true, "", ""⟩, GoValue.base 6)]].headD []).map Prod.fst)).length := by
  have h := c3_tuple_alignment ⟨fun _ => none, fun _ => none, fun _ => none⟩ 1
    [[(⟨"Id", true, "", ""⟩, GoValue.base 5)], [(⟨"Id", true, "", ""⟩, GoValue.base 6)]]
    (by decide) 0 [Wire.raw (GoValue.base 5)] ?hmem
  case hmem =>
    have htr : (BatchInsert ⟨fun _ => none, fun _ => none, fun _ => none⟩ 1
        [[(⟨"Id", true, "", ""⟩, GoValue.base 5)],
         [(⟨"Id", true, "", ""⟩, GoValue.base 6)]]).1
        = [Event.prepared 0, Event.appended 0 [Wire.raw (GoValue.base 5)], Event.sent 0 1,
           Event.prepared 1, Event.appended 1 [Wire.raw (GoValue.base 6)], Event.sent 1 2] :=
      rfl
    rw [htr]
    exact List.mem_cons_of_mem _ (List.mem_cons_self _ _)
  exact h

/-- Stepping lemma for chunk starts: two distinct multiples of the batch
size are at least one batch apart. -/
theorem aligned_step (B i iF : Nat) (hi : i % B = 0) (hiF : iF % B = 0)
    (hlt : i < iF) : i + B ≤ iF := by
  obtain ⟨a, ha⟩ := Nat.dvd_of_mod_eq_zero hi
  obtain ⟨b, hb⟩ := Nat.dvd_of_mod_eq_zero hiF
  subst ha
  subst hb
  have hab : a < b := by
    by_contra hc
    have h2 : b ≤ a := by omega
    have h3 := Nat.mul_le_mul_left B h2
    omega
  have h4 : B * (a + 1) ≤ B * b := Nat.mul_le_mul_left B (by omega)
  have h5 : B * (a + 1) = B * a + B := by ring
  omega

/-- Closed form of the append loop when the first append failure is at
record jF of the chunk: the successful appends before jF are recorded and
the loop stops with the wrapped append error, which carries no indices. -/
theorem appendLoop_fail (drv : BatchDriver) (data : List RecordV) (ncols endIdx jF : Nat)
    (m : String) (hjF : jF < endIdx) (hm : drv.appendErr jF = some m) :
    ∀ fuel j, endIdx ≤ j + fuel → j ≤ jF →
      (∀ j2, j ≤ j2 → j2 < jF → drv.appendErr j2 = none) →
      appendLoop drv data ncols endIdx fuel j
        = ((List.range' j (jF - j)).map
            (fun j2 => Event.appended j2 (extractValuesAux (data.getD j2 []) 0 ncols)),
           some ("failed to append data to batch: " ++ m)) := by
  intro fuel
  induction fuel with
  | zero => intro j hf hjle hok; omega
  | succ fuel ih =>
    intro j hf hjle hok
    have hj : j < endIdx := by omega
    by_cases hjj : j = jF
    · subst hjj
      simp [appendLoop, hj, hm, Nat.sub_self]
    · have happ : drv.appendErr j = none := hok j le_rfl (by omega)
      have hrec := ih (j + 1) (by omega) (by omega) (fun j2 h1 h2 => hok j2 (by omega) h2)
      have hrange : jF - j = (jF - (j + 1)) + 1 := by omega
      simp [appendLoop, hj, happ, hrec, hrange, List.range'_succ]

/-- Run of the chunk loop when the first failure of the whole run is the
send of the chunk starting at iF: the loop stops with the wrapped send
error naming that chunk range, and no event touches any later chunk. -/
theorem insertLoop_fail_send (drv : BatchDriver) (data : List RecordV) (ncols B iF : Nat)
    (hB : 0 < B) (hiF : iF < data.length) (hFmod : iF % B = 0)
    (hprev : ∀ i2, i2 < iF → i2 % B = 0 → drv.prepareErr i2 = none ∧ drv.sendErr i2 = none)
    (happok : ∀ j2, j2 < min (iF + B) data.length → drv.appendErr j2 = none)
    (hprep : drv.prepareErr iF = none)
    (m : String) (hsend : drv.sendErr iF = some m) :
    ∀ fuel i, data.length ≤ i + fuel → i ≤ iF → i % B = 0 →
      (insertLoop drv data ncols B fuel i).2
        = some ("failed to send batch " ++ toString iF ++ "-"
            ++ toString (min (iF + B) data.length - 1) ++ ": " ++ m) ∧
      ∀ ev ∈ (insertLoop drv data ncols B fuel i).1,
        eventBelow iF (min (iF + B) data.length) ev := by
  intro fuel
  induction fuel with
  | zero => intro i hf hile hmod; omega
  | succ fuel ih =>
    intro i hf hile hmod
    have hi : i < data.length := by omega
    by_cases hieq : i = iF
    · subst hieq
      have hA := appendLoop_ok drv data ncols (min (i + B) data.length)
        (min (i + B) data.length - i) i (by omega) (fun j2 _ hj2 => happok j2 hj2)
      constructor
      · simp [insertLoop, hi, hprep, hA, hsend]
      · intro ev hev
        simp only [insertLoop, hi, if_true, hprep, hA, hsend, List.mem_cons] at hev
        rcases hev with hev | hev
        · subst hev; simp [eventBelow]
        · rcases List.mem_map.mp hev with ⟨j2, hj2, hj2e⟩
          rw [List.mem_range'_1] at hj2
          subst hj2e
          simp only [eventBelow]
          omega
    · have hlt : i < iF := by omega
      have hstep : i + B ≤ iF := aligned_step B i iF hmod hFmod hlt
      have hA := appendLoop_ok drv data ncols (min (i + B) data.length)
        (min (i + B) data.length - i) i (by omega)
        (fun j2 _ hj2 => happok j2 (by omega))
      have hrec := ih (i + B) (by omega) (by omega)
        (by rw [Nat.add_mod_right]; exact hmod)
      constructor
      · simp [insertLoop, hi, (hprev i hlt hmod).1, hA, (hprev i hlt hmod).2, hrec.1]
      · intro ev hev
        simp only [insertLoop, hi, if_true, (hprev i hlt hmod).1, hA,
          (hprev i hlt hmod).2, List.mem_cons, List.mem_append] at hev
        rcases hev with hev | hev | hev | hev
        · subst hev; simp only [eventBelow]; omega
        · rcases List.mem_map.mp hev with ⟨j2, hj2, hj2e⟩
          rw [List.mem_range'_1] at hj2
          subst hj2e
          simp only [eventBelow]
          omega
        · subst hev; simp only [eventBelow]; omega
        · exact hrec.2 ev hev

/-- Run of the chunk loop when the first failure of the whole run is the
append of record jF inside the chunk starting at iF: the loop stops with
the wrapped append error (which carries no chunk range), and no event
touches any later chunk. -/
theorem insertLoop_fail_append (drv : BatchDriver) (data : List RecordV)
    (ncols B iF jF : Nat) (hB : 0 < B) (hiF : iF < data.length) (hFmod : iF % B = 0)
    (hprev : ∀ i2, i2 < iF → i2 % B = 0 → drv.prepareErr i2 = none ∧ drv.sendErr i2 = none)
    (hjF1 : iF ≤ jF) (hjF2 : jF < min (iF + B) data.length)
    (happok : ∀ j2, j2 < jF → drv.appendErr j2 = none)
    (hprep : drv.prepareErr iF = none)
    (m : String) (happF : drv.appendErr jF = some m) :
    ∀ fuel i, data.length ≤ i + fuel → i ≤ iF → i % B = 0 →
      (insertLoop drv data ncols B fuel i).2
        = some ("failed to append data to batch: " ++ m) ∧
      ∀ ev ∈ (insertLoop drv data ncols B fuel i).1,
        eventBelow iF (min (iF + B) data.length) ev := by
  intro fuel
  induction fuel with
  | zero => intro i hf hile hmod; omega
  | succ fuel ih =>
    intro i hf hile hmod
    have hi : i < data.length := by omega
    by_cases hieq : i = iF
    · subst hieq
      have hA := appendLoop_fail drv data ncols (min (i + B) data.length) jF m hjF2 happF
        (min (i + B) data.length - i) i (by omega) hjF1
        (fun j2 _ hj2 => happok j2 hj2)
      constructor
      · simp [insertLoop, hi, hprep, hA]
      · intro ev hev
        simp only [insertLoop, hi, if_true, hprep, hA, List.mem_cons] at hev
        rcases hev with hev | hev
        · subst hev; simp [eventBelow]
        · rcases List.mem_map.mp hev with ⟨j2, hj2, hj2e⟩
          rw [List.mem_range'_1] at hj2
          subst hj2e
          simp only [eventBelow]
          omega
    · have hlt : i < iF := by omega
      have hstep : i + B ≤ iF := aligned_step B i iF hmod hFmod hlt
      have hA := appendLoop_ok drv data ncols (min (i + B) data.length)
        (min (i + B) data.length - i) i (by omega)
        (fun j2 _ hj2 => happok j2 (by omega))
      have hrec := ih (i + B) (by omega) (by omega)
        (by rw [Nat.add_mod_right]; exact hmod)
      constructor
      · simp [insertLoop, hi, (hprev i hlt hmod).1, hA, (hprev i hlt hmod).2, hrec.1]
      · intro ev hev
        simp only [insertLoop, hi, if_true, (hprev i hlt hmod).1, hA,
          (hprev i hlt hmod).2, List.mem_cons, List.mem_append] at hev
        rcases hev with hev | hev | hev | hev
        · subst hev; simp only [eventBelow]; omega
        · rcases List.mem_map.mp hev with ⟨j2, hj2, hj2e⟩
          rw [List.mem_range'_1] at hj2
          subst hj2e
          simp only [eventBelow]
          omega
        · subst hev; simp only [eventBelow]; omega
        · exact hrec.2 ev hev

/-- Counterexample to C1: with a driver whose Append always fails with
message boom, the error BatchInsert returns is the bare wrapped append
error, whose text contains no digit at all, so it cannot identify the
failing chunk index range [0, 1) — the claim that append failures are
reported with the chunk range is false on the code (only send failures
are, per the format string at line 162; the append wrap at line 156 has no
indices). -/
theorem c1_counterexample :
    (BatchInsert ⟨fun _ => none, fun _ => some "boom", fun _ => none⟩ 1000
        [[(⟨"Id", true, "", ""⟩, GoValue.base 1)]]).2
      = some "failed to append data to batch: boom" ∧
    "failed to append data to batch: boom".data.all (fun c => !c.isDigit) = true := by
  constructor
  · rfl
  · decide

/-- C1 amended: BatchInsert aborts on the first append or send failure
without preparing, appending to, or sending any later chunk; the send
failure error identifies the failing chunk index range (start and last
index), while the append failure error carries only the wrapped driver
message and no chunk range. iF is the start of the failing chunk and all
earlier chunks succeed. -/
theorem c1_abort_on_failure (drv : BatchDriver) (data : List RecordV) (B iF : Nat)
    (hB : 0 < B) (hiF : iF < data.length) (hFmod : iF % B = 0)
    (hprev : ∀ i2, i2 < iF → i2 % B = 0 → drv.prepareErr i2 = none ∧ drv.sendErr i2 = none)
    (hprep : drv.prepareErr iF = none) :
    ((∀ j2, j2 < min (iF + B) data.length → drv.appendErr j2 = none) →
      ∀ m, drv.sendErr iF = some m →
      (BatchInsert drv B data).2
        = some ("failed to send batch " ++ toString iF ++ "-"
            ++ toString (min (iF + B) data.length - 1) ++ ": " ++ m) ∧
      ∀ ev ∈ (BatchInsert drv B data).1,
        eventBelow iF (min (iF + B) data.length) ev) ∧
    (∀ jF m, iF ≤ jF → jF < min (iF + B) data.length →
      (∀ j2, j2 < jF → drv.appendErr j2 = none) →
      drv.appendErr jF = some m →
      (BatchInsert drv B data).2 = some ("failed to append data to batch: " ++ m) ∧
      ∀ ev ∈ (BatchInsert drv B data).1,
        eventBelow iF (min (iF + B) data.length) ev) := by
  have hlen : ¬ data.length = 0 := by omega
  constructor
  · intro happok m hsend
    have h := insertLoop_fail_send drv data
      (analyzeStructure ((data.headD []).map Prod.fst)).length B iF hB hiF hFmod
      hprev happok hprep m hsend data.length 0 (by omega) (by omega) (by simp)
    constructor
    · simp only [BatchInsert, hlen, if_false]
      exact h.1
    · intro ev hev
      refine h.2 ev ?_
      simp only [BatchInsert, hlen, if_false] at hev
      exact hev
  · intro jF m hjF1 hjF2 happok happF
    have h := insertLoop_fail_append drv data
      (analyzeStructure ((data.headD []).map Prod.fst)).length B iF jF hB hiF hFmod
      hprev hjF1 hjF2 happok hprep m happF data.length 0 (by omega) (by omega) (by simp)
    constructor
    · simp only [BatchInsert, hlen, if_false]
      exact h.1
    · intro ev hev
      refine h.2 ev ?_
      simp only [BatchInsert, hlen, if_false] at hev
      exact hev

/-- Witness for C1 amended, at batch size 2 over four single-field records:
a send failure on the second chunk [2, 4) is reported with that range, and
an append failure at record 2 is reported with the bare driver message. -/
theorem c1_abort_on_failure_witness :
    (BatchInsert
        ⟨fun _ => none, fun _ => none, fun i => if i = 2 then some "net down" else none⟩ 2
        [[(⟨"Id", true, "", ""⟩, GoValue.base 1)], [(⟨"Id", true, "", ""⟩, GoValue.base 2)],
         [(⟨"Id", true, "", ""⟩, GoValue.base 3)],
         [(⟨"Id", true, "", ""⟩, GoValue.base 4)]]).2
      = some "failed to send batch 2-3: net down" ∧
    (BatchInsert
        ⟨fun _ => none, fun j => if j = 2 then some "oops" else none, fun _ => none⟩ 2
        [[(⟨"Id", true, "", ""⟩, GoValue.base 1)], [(⟨"Id", true, "", ""⟩, GoValue.base 2)],
         [(⟨"Id", true, "", ""⟩, GoValue.base 3)],
         [(⟨"Id", true, "", ""⟩, GoValue.base 4)]]).2
      = some "failed to append data to batch: oops" := by
  constructor
  · have h := (c1_abort_on_failure
      ⟨fun _ => none, fun _ => none, fun i => if i = 2 then some "net down" else none⟩
      [[(⟨"Id", true, "", ""⟩, GoValue.base 1)], [(⟨"Id", true, "", ""⟩, GoValue.base 2)],
       [(⟨"Id", true, "", ""⟩, GoValue.base 3)],
       [(⟨"Id", true, "", ""⟩, GoValue.base 4)]] 2 2
      (by decide) (by decide) (by decide) (by decide) (by decide)).1
      (by decide) "net down" (by decide)
    exact h.1.trans (by decide)
  · have h := (c1_abort_on_failure
      ⟨fun _ => none, fun j => if j = 2 then some "oops" else none, fun _ => none⟩
      [[(⟨"Id", true, "", ""⟩, GoValue.base 1)], [(⟨"Id", true, "", ""⟩, GoValue.base 2)],
       [(⟨"Id", true, "", ""⟩, GoValue.base 3)],
       [(⟨"Id", true, "", ""⟩, GoValue.base 4)]] 2 2
      (by decide) (by decide) (by decide) (by decide) (by decide)).2
      2 "oops" (by decide) (by decide) (by decide) (by decide)
    exact h.1

/-- The scan-write loop preserves the destination length. -/
theorem foldl_bindStep_length (fields : List StructField) :
    ∀ (z : List (String × Nat)) (acc : List (Option Nat)),
      (z.foldl (bindStep fields) acc).length = acc.length := by
  intro z
  induction z with
  | nil => intro acc; rfl
  | cons p z2 ih =>
    intro acc
    rw [List.foldl_cons, ih]
    unfold bindStep
    rcases findStructField fields p.1 with _ | idx <;> simp

/-- Value of one destination slot after the scan-write loop: the cell of
the last column written to that slot, or the initial value when no column
writes it. -/
theorem bind_foldl_getD (fields : List StructField) (fIdx : Nat) :
    ∀ (z : List (String × Nat)) (acc : List (Option Nat)), fIdx < acc.length →
      (z.foldl (bindStep fields) acc).getD fIdx none
        = z.foldl
            (fun r p => if findStructField fields p.1 = some fIdx then some p.2 else r)
            (acc.getD fIdx none) := by
  intro z
  induction z with
  | nil => intro acc h; rfl
  | cons p z2 ih =>
    intro acc h
    rw [List.foldl_cons, List.foldl_cons]
    rcases hp : findStructField fields p.1 with _ | idx2
    · rw [show bindStep fields acc p = acc from by simp [bindStep, hp]]
      rw [if_neg (by simp [hp])]
      exact ih acc h
    · by_cases hidx : idx2 = fIdx
      · subst hidx
        rw [show bindStep fields acc p = acc.set idx2 (some p.2) from by simp [bindStep, hp]]
        rw [if_pos rfl]
        rw [ih _ (by simp [h])]
        congr 1
        rw [List.getD_eq_getElem?_getD, List.getElem?_set_self h]
        rfl
      · rw [show bindStep fields acc p = acc.set idx2 (some p.2) from by simp [bindStep, hp]]
        rw [if_neg (by simp [hp, hidx])]
        rw [ih _ (by simp [h])]
        congr 1
        rw [List.getD_eq_getElem?_getD, List.getElem?_set_ne hidx,
          ← List.getD_eq_getElem?_getD]

/-- A run of the last-written-cell fold over columns none of which matches
the slot leaves the initial value unchanged. -/
theorem foldl_if_none (fields : List StructField) (fIdx : Nat) :
    ∀ (z : List (String × Nat)) (r : Option Nat),
      (∀ p ∈ z, findStructField fields p.1 ≠ some fIdx) →
      z.foldl
          (fun r p => if findStructField fields p.1 = some fIdx then some p.2 else r)
          r = r := by
  intro z
  induction z with
  | nil => intro r _; rfl
  | cons p z2 ih =>
    intro r h
    rw [List.foldl_cons, if_neg (h p (List.mem_cons_self p z2))]
    exact ih r (fun p2 hp2 => h p2 (List.mem_cons_of_mem _ hp2))

/-- The zero destination record holds none in every slot. -/
theorem map_none_getD (l : List StructField) :
    ∀ fIdx, (l.map (fun _ => (none : Option Nat))).getD fIdx none = none := by
  induction l with
  | nil => intro fIdx; simp
  | cons f rest ih =>
    intro fIdx
    cases fIdx with
    | zero => rfl
    | succ n => simpa using ih n

/-- Run of the row loop when every scan succeeds: one bound record per row,
in order, and no error. -/
theorem queryLoop_ok (fields : List StructField) (columns : List String)
    (scanErr : Nat → Option String) :
    ∀ (rows : List (List Nat)) (k : Nat),
      (∀ k2, k ≤ k2 → k2 < k + rows.length → scanErr k2 = none) →
      queryLoop fields columns scanErr rows k
        = (rows.map (bindRow fields columns), none) := by
  intro rows
  induction rows with
  | nil => intro k _; rfl
  | cons r rest ih =>
    intro k h
    have h0 : scanErr k = none := h k le_rfl (by simp)
    simp only [queryLoop, h0]
    rw [ih (k + 1) (fun k2 h1 h2 => h k2 (by omega)
      (by simp only [List.length_cons]; omega))]
    simp

/-- Run of the row loop when the first scan failure is at displacement d:
exactly the d earlier rows are bound and the underlying error surfaces. -/
theorem queryLoop_fail (fields : List StructField) (columns : List String)
    (scanErr : Nat → Option String) :
    ∀ (rows : List (List Nat)) (k d : Nat) (e : String), d < rows.length →
      scanErr (k + d) = some e →
      (∀ k2, k ≤ k2 → k2 < k + d → scanErr k2 = none) →
      queryLoop fields columns scanErr rows k
        = ((rows.take d).map (bindRow fields columns), some e) := by
  intro rows
  induction rows with
  | nil => intro k d e hd _ _; simp at hd
  | cons r rest ih =>
    intro k d e hd he hok
    cases d with
    | zero =>
      simp only [Nat.add_zero] at he
      simp [queryLoop, he]
    | succ d2 =>
      have h0 : scanErr k = none := hok k le_rfl (by omega)
      simp only [queryLoop, h0]
      have he2 : scanErr (k + 1 + d2) = some e := by
        rw [show k + 1 + d2 = k + (d2 + 1) from by omega]
        exact he
      rw [ih (k + 1) d2 e (by simp only [List.length_cons] at hd; omega) he2
        (fun k2 h1 h2 => hok k2 (by omega) (by omega))]
      simp [List.take_succ_cons]

/-- C9: the result mapper binds each matched column into its destination
field (the last write winning when several columns resolve to the same
field), silently discards result columns with no matching field, leaves
destination fields matched by no column at their zero value (none), and
appends a record per row only after a successful bind; when every scan
succeeds all rows are bound in order with no error, and when the first
scan failure is at row k (0-based) exactly the k earlier records remain in
the destination and the underlying error is returned. -/
theorem c9_query_to_struct (fields : List StructField) (columns : List String)
    (rows : List (List Nat)) (scanErr : Nat → Option String) :
    ((∀ k, k < rows.length → scanErr k = none) →
      QueryToStruct fields columns rows scanErr
        = (rows.map (bindRow fields columns), none)) ∧
    (∀ r fIdx, fIdx < fields.length →
      (∀ c ∈ columns, findStructField fields c ≠ some fIdx) →
      (bindRow fields columns r).getD fIdx none = none) ∧
    (∀ r fIdx z1 p z2, fIdx < fields.length →
      columns.zip r = z1 ++ p :: z2 →
      findStructField fields p.1 = some fIdx →
      (∀ p2 ∈ z2, findStructField fields p2.1 ≠ some fIdx) →
      (bindRow fields columns r).getD fIdx none = some p.2) ∧
    (∀ k e, k < rows.length → scanErr k = some e →
      (∀ k2, k2 < k → scanErr k2 = none) →
      QueryToStruct fields columns rows scanErr
        = ((rows.take k).map (bindRow fields columns), some e)) := by
  refine ⟨?_, ?_, ?_, ?_⟩
  · intro h
    exact queryLoop_ok fields columns scanErr rows 0
      (fun k2 _ h2 => h k2 (by omega))
  · intro r fIdx hf hnone
    rw [bindRow, bind_foldl_getD fields fIdx _ _ (by simp [hf]), map_none_getD]
    exact foldl_if_none fields fIdx _ _
      (fun p hp => hnone p.1 (List.of_mem_zip hp).1)
  · intro r fIdx z1 p z2 hf hz hp hlater
    rw [bindRow, bind_foldl_getD fields fIdx _ _ (by simp [hf]), hz,
      List.foldl_append, List.foldl_cons, if_pos hp]
    exact foldl_if_none fields fIdx z2 (some p.2) hlater
  · intro k e hk he hok
    exact queryLoop_fail fields columns scanErr rows 0 k e hk
      (by rw [Nat.zero_add]; exact he) (fun k2 _ h2 => hok k2 (by omega))

/-- Witness for C9, the scenario of spec section 8: columns id, name and
extra_unmapped scanned into a record type with fields Id, Name and Age; the
id and name cells bind positionally, extra_unmapped is discarded, Age
(matched by no column) stays at its zero value, and a scan failure on the
third row of five leaves exactly two bound records and returns the scan
error. -/
theorem c9_query_to_struct_witness :
    QueryToStruct [⟨"Id", true, "", ""⟩, ⟨"Name", true, "", ""⟩, ⟨"Age", true, "", ""⟩]
        ["id", "name", "extra_unmapped"]
        [[1, 10, 100], [2, 20, 200], [3, 30, 300], [4, 40, 400], [5, 50, 500]]
        (fun k => if k = 2 then some "scan fail" else none)
      = (([[1, 10, 100], [2, 20, 200]] : List (List Nat)).map
          (bindRow [⟨"Id", true, "", ""⟩, ⟨"Name", true, "", ""⟩, ⟨"Age", true, "", ""⟩]
            ["id", "name", "extra_unmapped"]),
         some "scan fail") ∧
    (bindRow [⟨"Id", true, "", ""⟩, ⟨"Name", true, "", ""⟩, ⟨"Age", true, "", ""⟩]
        ["id", "name", "extra_unmapped"] [1, 10, 100]).getD 0 none = some 1 ∧
    (bindRow [⟨"Id", true, "", ""⟩, ⟨"Name", true, "", ""⟩, ⟨"Age", true, "", ""⟩]
        ["id", "name", "extra_unmapped"] [1, 10, 100]).getD 2 none = none := by
  have h := c9_query_to_struct
    [⟨"Id", true, "", ""⟩, ⟨"Name", true, "", ""⟩, ⟨"Age", true, "", ""⟩]
    ["id", "name", "extra_unmapped"]
    [[1, 10, 100], [2, 20, 200], [3, 30, 300], [4, 40, 400], [5, 50, 500]]
    (fun k => if k = 2 then some "scan fail" else none)
  refine ⟨?_, ?_, ?_⟩
  · have h4 := h.2.2.2 2 "scan fail" (by decide) (by decide) (by decide)
    exact h4
  · exact h.2.2.1 [1, 10, 100] 0 [] ("id", 1) [("name", 10), ("extra_unmapped", 100)]
      (by decide) (by decide) (by decide) (by decide)
  · exact h.2.1 [1, 10, 100] 2 (by decide) (by decide)

end Ckconn
